import Mathlib

/-
  Verification of the Conversation State & Write-Behind Coordinator spec
  against the repository's backend sources.

  The registered realtime path is `simpleMessageHandler.js` (wired up in
  `server.js`), a direct Socket.io -> DeepSeek -> Firebase flow; persistence
  is `firebaseService.js` backed by Firestore with a Redis message cache.
  Components the spec describes that are not present in the provided sources
  (the distributed lock, the background batch flusher, `usageService.js`,
  `cacheService.js`) are modelled from the spec and are marked as such in
  their doc comments.
-/

set_option autoImplicit false

/-- Last `n` elements of a list, keeping their order (models reading the
most recent `n` entries of an append-only message list). -/
def lastN {α : Type} (n : Nat) (l : List α) : List α :=
  l.drop (l.length - n)

/-- A chat message as the handler persists it: the sender role
("user" or "character") and the text content. -/
structure Msg where
  sender : String
  content : String
deriving Repr, DecidableEq

/-- Observable state of one conversation as driven by the `message:send`
handler: the persisted history in arrival order, the number of
`generateResponse` invocations, and the number of `message:error` events
emitted to the sender. -/
structure HandlerState where
  msgs : List Msg
  aiCalls : Nat
  errorEmits : Nat
deriving Repr, DecidableEq

/-- A conversation with no history and no activity yet. -/
def emptyHandlerState : HandlerState := ⟨[], 0, 0⟩

/-- The handler requests the last 10 messages as AI context:
`getMessages(conversationId, 10)` in `simpleMessageHandler.js`. -/
def aiHistoryLimit : Nat := 10

/-- Shallow embedding of the `socket.on('message:send')` handler of
`simpleMessageHandler.js` for one conversation. Steps of the source, in
order: save the user message, read the conversation history (last 10
messages, which now include the just-saved user message), call
`generateResponse` with that history, and on success save the AI reply.
`gen` models the opaque AI call; `none` models a thrown error or timeout,
which lands in the catch block: exactly one `message:error` event is
emitted and nothing further is persisted. Returns the new state together
with the history that was passed to the AI call. -/
def handleMessageSend (gen : List Msg → String → Option String)
    (s : HandlerState) (content : String) : HandlerState × List Msg :=
  let msgs1 := s.msgs ++ [⟨"user", content⟩]
  let history := lastN aiHistoryLimit msgs1
  match gen history content with
  | some reply =>
      (⟨msgs1 ++ [⟨"character", reply⟩], s.aiCalls + 1, s.errorEmits⟩, history)
  | none =>
      (⟨msgs1, s.aiCalls + 1, s.errorEmits + 1⟩, history)

/-- A burst of user messages processed by the handler one event at a time,
in arrival order (the handler has no debounce window or queue: every
`message:send` event runs the full flow). Also collects the AI context of
each cycle. -/
def processBurst (gen : List Msg → String → Option String)
    (s : HandlerState) : List String → HandlerState × List (List Msg)
  | [] => (s, [])
  | c :: cs =>
      let r1 := handleMessageSend gen s c
      let r2 := processBurst gen r1.1 cs
      (r2.1, r1.2 :: r2.2)

/-- Result of a lock acquisition attempt (spec §4.1): either a token
holding the freshly stored ownerId, or `busy`. -/
inductive AcquireResult where
  | acquired (ownerId : String)
  | busy
deriving Repr, DecidableEq

/-- Modelled from the spec: the Distributed Lock of spec §4.1, which has no
implementation under the provided sources (the conversation-state service
it belongs to is referenced by the repository docs but absent; the
registered simple handler does not use it). The fast-store lock cell for
one ConversationKey holds the stored ownerId, or `none` when the key is
absent or expired. `acquire` is the atomic set-if-not-exists: it stores a
new ownerId only when the cell is empty, and answers `busy` otherwise. -/
def acquire (cell : Option String) (ownerId : String) :
    Option String × AcquireResult :=
  match cell with
  | none => (some ownerId, .acquired ownerId)
  | some o => (some o, .busy)

/-- Modelled from the spec: `release` of spec §4.1 deletes the lock key
only when the stored ownerId matches the presented one; a mismatch is
reported (`false`), not treated as an error. -/
def release (cell : Option String) (ownerId : String) :
    Option String × Bool :=
  match cell with
  | some o => if o = ownerId then (none, true) else (some o, false)
  | none => (none, false)

/-- A set of concurrent `acquire` calls on the same ConversationKey,
linearized by the fast store in some order: each caller's compare-and-set
runs atomically against the cell left by the previous one. Returns the
final cell and each caller's result, in linearization order. -/
def runAcquires (cell : Option String) :
    List String → Option String × List AcquireResult
  | [] => (cell, [])
  | o :: os =>
      let r1 := acquire cell o
      let r2 := runAcquires r1.1 os
      (r2.1, r1.2 :: r2.2)

/-- Number of successful acquisitions among a list of results. -/
def countAcquired (rs : List AcquireResult) : Nat :=
  (rs.filter (fun r => match r with
    | .acquired _ => true
    | .busy => false)).length

/-- Modelled from the spec: one generation cycle guarded by the
per-conversation lock (spec §4.4 and §5): acquire the lock; on `busy` do
nothing (callers queue rather than wait); otherwise run the message flow
and release the lock on both the success path and the error path. -/
def runLockedCycle (gen : List Msg → String → Option String)
    (cell : Option String) (owner : String) (s : HandlerState)
    (content : String) : Option String × HandlerState :=
  match acquire cell owner with
  | (c1, .acquired _) =>
      let r := handleMessageSend gen s content
      ((release c1 owner).1, r.1)
  | (c1, .busy) => (c1, s)

/-- Lookup in a string-keyed association list (a Firestore collection or a
Redis keyspace keyed by document id). -/
def fsLookup {α : Type} (l : List (String × α)) (k : String) : Option α :=
  match l with
  | [] => none
  | (k', v) :: t => if k' = k then some v else fsLookup t k

/-- Set a key in a string-keyed association list, overwriting an existing
entry or appending a new one. -/
def fsSet {α : Type} (l : List (String × α)) (k : String) (v : α) :
    List (String × α) :=
  match l with
  | [] => [(k, v)]
  | (k', v') :: t => if k' = k then (k, v) :: t else (k', v') :: fsSet t k v

/-- A conversation document as created by `getOrCreateConversation` and
updated by `saveMessage` in `firebaseService.js`. -/
structure Conversation where
  userId : String
  characterId : String
  createdAt : Nat
  updatedAt : Nat
  messageCount : Nat
  lastMessage : Option String
deriving Repr, DecidableEq

/-- A message document as built by `saveMessage`: the generated id
(uuidv4, modelled as a Nat oracle), the message data fields (`mtype`
models the source's `type` field), the write timestamp and the owning
conversation id. -/
structure Message where
  id : Nat
  sender : String
  mtype : String
  content : String
  timestamp : Nat
  conversationId : String
deriving Repr, DecidableEq

/-- The durable store: the `conversations` collection and the flattened
per-conversation `messages` subcollections, the latter kept in write
order and tagged with the owning conversation id. -/
structure Firestore where
  convs : List (String × Conversation)
  msgs : List (String × Message)
deriving Repr, DecidableEq

/-- The fast store's per-conversation message lists (the Redis cache
behind `cacheService.js`). -/
abbrev Cache : Type := List (String × List Message)

/-- The buffered message list of one conversation (empty when the key is
absent). -/
def cacheList (cache : Cache) (conversationId : String) : List Message :=
  (fsLookup cache conversationId).getD []

/-- Modelled from the spec: `pushMessage` of the absent `cacheService.js`,
the fast-store list append of the spec's Fast Store Adapter — appends one
message to the conversation's buffered list. -/
def cachePushMessage (cache : Cache) (conversationId : String)
    (m : Message) : Cache :=
  fsSet cache conversationId (cacheList cache conversationId ++ [m])

/-- Shallow embedding of `getOrCreateConversation` (firebaseService.js):
the conversation id is the stable string `userId ++ "_" ++ characterId`;
an existing document is returned as is, otherwise a fresh document with
`messageCount = 0` and both timestamps set to `now` is written. Returns
the (possibly updated) store, the conversation id and the document. -/
def getOrCreateConversation (db : Firestore) (userId characterId : String)
    (now : Nat) : Firestore × String × Conversation :=
  let conversationId := userId ++ "_" ++ characterId
  match fsLookup db.convs conversationId with
  | some c => (db, conversationId, c)
  | none =>
      let c : Conversation := ⟨userId, characterId, now, now, 0, none⟩
      ({ db with convs := fsSet db.convs conversationId c },
        conversationId, c)

/-- The two store writes `saveMessage` performs, in the order the source
performs them: the awaited Firestore batch commit, then the cache push. -/
inductive StoreOp where
  | durableCommit
  | cachePush
deriving Repr, DecidableEq

/-- Shallow embedding of `saveMessage` (firebaseService.js). One Firestore
batch atomically writes the message document and the conversation update
(`updatedAt`, `lastMessage := content || type`, `messageCount`
incremented by 1); the batch `update` requires the conversation document
to exist, and `commitOk` models an external commit failure. Only after a
successful commit is the message pushed to the cache; on failure the
error propagates and both stores are unchanged. The last component
records the order of the store writes that happened. -/
def saveMessage (commitOk : Bool) (db : Firestore) (cache : Cache)
    (conversationId sender mtype content : String) (msgId now : Nat) :
    Except String Message × Firestore × Cache × List StoreOp :=
  let message : Message := ⟨msgId, sender, mtype, content, now, conversationId⟩
  match fsLookup db.convs conversationId, commitOk with
  | some conv, true =>
      let conv' : Conversation :=
        { conv with
            updatedAt := now
            lastMessage := some (if content = "" then mtype else content)
            messageCount := conv.messageCount + 1 }
      let db' : Firestore :=
        { convs := fsSet db.convs conversationId conv'
          msgs := db.msgs ++ [(conversationId, message)] }
      (.ok message, db', cachePushMessage cache conversationId message,
        [.durableCommit, .cachePush])
  | _, _ => (.error "Error saving message", db, cache, [])

/-- Insert a message into a list sorted by ascending timestamp. -/
def insertByTs (m : Message) : List Message → List Message
  | [] => [m]
  | x :: xs =>
      if m.timestamp ≤ x.timestamp then m :: x :: xs
      else x :: insertByTs m xs

/-- Sort messages by ascending timestamp — the net effect of the source's
Firestore query `orderBy('timestamp', 'desc')` followed by `reverse()`. -/
def sortByTs : List Message → List Message
  | [] => []
  | x :: xs => insertByTs x (sortByTs xs)

/-- Chronological order: each message's timestamp is at most every later
message's timestamp. -/
def Chronological (l : List Message) : Prop :=
  List.Pairwise (fun a b => a.timestamp ≤ b.timestamp) l

/-- Shallow embedding of `getMessages` (firebaseService.js). It serves the
cached list when it is non-empty (the cache read of the absent
`cacheService.js` is modelled from the spec's fast-store adapter as the
most recent `limit` buffered messages). On a cache miss it runs the
Firestore query — order by timestamp descending, take `limit`, then
reverse, i.e. the `limit` most recent messages in chronological order —
and repopulates the cache by pushing each fetched message in order.
Returns the new cache and the served messages. -/
def getMessages (db : Firestore) (cache : Cache) (conversationId : String)
    (limit : Nat) : Cache × List Message :=
  let cached := lastN limit (cacheList cache conversationId)
  if cached.length > 0 then (cache, cached)
  else
    let ordered := lastN limit (sortByTs
      ((db.msgs.filter (fun p => p.1 == conversationId)).map Prod.snd))
    (ordered.foldl (fun acc m => cachePushMessage acc conversationId m)
      cache, ordered)

/-- The batch flush interval from `config.redis.batch.flushInterval`
(environment.js): 60000 ms by default. -/
def flushInterval : Nat := 60000

/-- The maximum buffered operation count from
`config.redis.batch.maxBufferSize` (environment.js): 400 by default
("Max operations before force flush"). -/
def maxBufferSize : Nat := 400

/-- Modelled from the spec: the per-key state consulted by the background
flusher of spec §4.3, whose implementation is absent from the provided
sources — the number of buffered, unflushed entries and the enqueue time
of the first unflushed entry, if any. -/
structure BufferState where
  count : Nat
  firstUnflushedAt : Option Nat
deriving Repr, DecidableEq

/-- Modelled from the spec: the flush trigger of spec §4.3 — flush when
the buffered count exceeds the configured maximum or the configured
interval has elapsed since the first unflushed entry, whichever occurs
first; the constants are the defaults of `config.redis.batch`. -/
def shouldFlush (b : BufferState) (now : Nat) : Bool :=
  decide (maxBufferSize < b.count) ||
    (match b.firstUnflushedAt with
      | some t => decide (t + flushInterval ≤ now)
      | none => false)

/-- Message types whose daily usage is tracked: text, audio and
media/image messages. -/
inductive MsgType where
  | text
  | audio
  | media
deriving Repr, DecidableEq

/-- Modelled from the spec: the per-(user, character) daily usage record
of the absent `usageService.js`, as exercised by its test script
(src/unnamed/part_001) — independent counters per message type. -/
structure Usage where
  textMessages : Nat
  audioMessages : Nat
  mediaMessages : Nat
deriving Repr, DecidableEq

/-- Modelled from the spec: the free-tier daily limits — 30 text messages,
5 audio messages and 5 media/image messages, as asserted by the usage
test script and by `formattedUsage` in resetDailyUsage.js. -/
def limitFor : MsgType → Nat
  | .text => 30
  | .audio => 5
  | .media => 5

/-- The counter of a usage record for a given message type. -/
def usedFor (u : Usage) : MsgType → Nat
  | .text => u.textMessages
  | .audio => u.audioMessages
  | .media => u.mediaMessages

/-- Result of `canSendMessage`: whether sending is allowed, the remaining
allowance for the type, and the error string when over the limit. -/
structure CanSend where
  allowed : Bool
  remainingMessages : Nat
  error : Option String
deriving Repr, DecidableEq

/-- Modelled from the spec: `canSendMessage` of the absent
`usageService.js`, as pinned down by its test script — under the limit it
allows sending and reports the remaining count; at the limit it denies
with zero remaining and the error "Daily message limit reached". -/
def canSendMessage (u : Usage) (t : MsgType) : CanSend :=
  if usedFor u t < limitFor t then
    ⟨true, limitFor t - usedFor u t, none⟩
  else
    ⟨false, 0, some "Daily message limit reached"⟩

/-- Modelled from the spec: `incrementUsage` of the absent
`usageService.js` — bumps exactly the counter of the given type. -/
def incrementUsage (u : Usage) : MsgType → Usage
  | .text => { u with textMessages := u.textMessages + 1 }
  | .audio => { u with audioMessages := u.audioMessages + 1 }
  | .media => { u with mediaMessages := u.mediaMessages + 1 }

theorem handleMessageSend_aiCalls (gen : List Msg → String → Option String)
    (s : HandlerState) (c : String) :
    (handleMessageSend gen s c).1.aiCalls = s.aiCalls + 1 := by
  cases hg : gen (lastN aiHistoryLimit (s.msgs ++ [⟨"user", c⟩])) c <;>
    simp [handleMessageSend, hg]

theorem processBurst_aiCalls (gen : List Msg → String → Option String)
    (cs : List String) : ∀ s : HandlerState,
    (processBurst gen s cs).1.aiCalls = s.aiCalls + cs.length := by
  induction cs with
  | nil => intro s; simp [processBurst]
  | cons c cs ih =>
      intro s
      simp only [processBurst, ih, handleMessageSend_aiCalls, List.length_cons]
      omega

/-- C1: the claim states that N user messages admitted within one debounce
window start exactly one generation cycle with all N messages in its
context. The registered handler has no debounce: in the spec's own
scenario, sending `["hi", "are you there?", "hello?"]` starts three AI
calls, not one. -/
theorem C1_counterexample :
    (processBurst (fun _ _ => some "ok") emptyHandlerState
        ["hi", "are you there?", "hello?"]).1.aiCalls = 3 ∧
    ¬ ((processBurst (fun _ _ => some "ok") emptyHandlerState
        ["hi", "are you there?", "hello?"]).1.aiCalls = 1) := by
  refine ⟨rfl, by decide⟩

/-- C1 (amended): each admitted message starts its own generation cycle —
a burst of N messages produces exactly N AI calls — and in the spec's
three-message scenario the i-th cycle's context contains the first i
user messages of the burst, in arrival order. -/
theorem C1_amended_one_cycle_per_message :
    (∀ (gen : List Msg → String → Option String) (s : HandlerState)
        (cs : List String),
        (processBurst gen s cs).1.aiCalls = s.aiCalls + cs.length) ∧
    ((processBurst (fun _ _ => some "ok") emptyHandlerState
          ["hi", "are you there?", "hello?"]).2.map
        (fun ctx => (ctx.filter (fun m => m.sender == "user")).map
          (fun m => m.content)) =
      [["hi"], ["hi", "are you there?"], ["hi", "are you there?", "hello?"]]) := by
  refine ⟨fun gen s cs => processBurst_aiCalls gen cs s, by decide⟩

theorem runAcquires_held (o : String) (callers : List String) :
    (runAcquires (some o) callers).1 = some o ∧
    ∀ r ∈ (runAcquires (some o) callers).2, r = AcquireResult.busy := by
  induction callers with
  | nil => simp [runAcquires]
  | cons c cs ih =>
      simp only [runAcquires, acquire]
      exact ⟨ih.1, by
        intro r hr
        rcases List.mem_cons.mp hr with h | h
        · exact h
        · exact ih.2 r h⟩

theorem countAcquired_all_busy (rs : List AcquireResult)
    (h : ∀ r ∈ rs, r = AcquireResult.busy) : countAcquired rs = 0 := by
  induction rs with
  | nil => rfl
  | cons r rs ih =>
      have hr := h r (List.mem_cons_self r rs)
      subst hr
      simpa [countAcquired] using ih (fun x hx => h x (List.mem_cons_of_mem _ hx))

/-- C2: at most one active LockToken per ConversationKey — of any set of
concurrent `acquire` calls on the same key, linearized in any order and
from any initial cell state, at most one succeeds and every caller that
runs against a held cell receives `busy`; and a generation cycle attempted
while the lock is held does nothing (no AI call), so two generation cycles
for the same conversation never overlap. -/
theorem C2_lock_mutual_exclusion :
    (∀ (cell : Option String) (callers : List String),
        countAcquired (runAcquires cell callers).2 ≤ 1) ∧
    (∀ (o : String) (callers : List String),
        ∀ r ∈ (runAcquires (some o) callers).2, r = AcquireResult.busy) ∧
    (∀ (gen : List Msg → String → Option String) (o owner : String)
        (s : HandlerState) (content : String),
        runLockedCycle gen (some o) owner s content = (some o, s)) := by
  refine ⟨?_, fun o callers => (runAcquires_held o callers).2, ?_⟩
  · intro cell callers
    cases cell with
    | some o =>
        have h0 := countAcquired_all_busy _ ((runAcquires_held o callers).2)
        omega
    | none =>
        cases callers with
        | nil => simp [runAcquires, countAcquired]
        | cons c cs =>
            have hb := countAcquired_all_busy _ ((runAcquires_held c cs).2)
            have hc : countAcquired (runAcquires none (c :: cs)).2 =
                countAcquired (runAcquires (some c) cs).2 + 1 := by
              simp [runAcquires, acquire, countAcquired]
            omega
  · intro gen o owner s content
    simp [runLockedCycle, acquire]

/-- C3: when a generation cycle fails (the AI call errors or times out),
exactly one `message:error` notification is emitted to the user, the lock
is released, and an immediately following `acquire` on the same key
succeeds. -/
theorem C3_failure_single_error_and_release
    (gen : List Msg → String → Option String) (owner o2 : String)
    (s : HandlerState) (content : String)
    (hfail : ∀ h c, gen h c = none) :
    (runLockedCycle gen none owner s content).2.errorEmits =
        s.errorEmits + 1 ∧
    (runLockedCycle gen none owner s content).1 = none ∧
    (acquire (runLockedCycle gen none owner s content).1 o2).2 =
        AcquireResult.acquired o2 := by
  simp [runLockedCycle, acquire, release, handleMessageSend, hfail]

theorem C3_failure_single_error_and_release_witness :
    (∀ (h : List Msg) (c : String),
        (fun (_ : List Msg) (_ : String) => (none : Option String)) h c
          = none) ∧
    ((runLockedCycle (fun _ _ => none) none "worker1" emptyHandlerState
        "hi").2.errorEmits = emptyHandlerState.errorEmits + 1 ∧
      (runLockedCycle (fun _ _ => none) none "worker1" emptyHandlerState
        "hi").1 = none ∧
      (acquire (runLockedCycle (fun _ _ => none) none "worker1"
          emptyHandlerState "hi").1 "worker2").2 =
        AcquireResult.acquired "worker2") :=
  ⟨fun _ _ => rfl,
    C3_failure_single_error_and_release (fun _ _ => none) "worker1"
      "worker2" emptyHandlerState "hi" (fun _ _ => rfl)⟩

/-- C4: the claim states that on AI-call failure an error message is
appended to the buffer in place of the AI result, so the failure turn is
persisted in the conversation history. In the handler's catch block
nothing is persisted: after a failing cycle on a fresh conversation the
history holds only the user message — no character/error turn — even
though one `message:error` event was emitted. -/
theorem C4_counterexample :
    (handleMessageSend (fun _ _ => none) emptyHandlerState "hi").1.msgs =
        [⟨"user", "hi"⟩] ∧
    ((handleMessageSend (fun _ _ => none) emptyHandlerState
        "hi").1.msgs.filter (fun m => m.sender == "character")) = [] ∧
    (handleMessageSend (fun _ _ => none) emptyHandlerState
        "hi").1.errorEmits = 1 := by
  refine ⟨rfl, by decide, rfl⟩

/-- C4 (amended): on AI-call failure no message is persisted in place of
the AI result — the history gains only the already-saved user message —
and the user is notified by exactly one transient `message:error` event;
the cycle ends there instead of completing through a flush phase. -/
theorem C4_amended_failure_turn_not_persisted
    (gen : List Msg → String → Option String) (s : HandlerState)
    (content : String)
    (hfail : gen (lastN aiHistoryLimit (s.msgs ++ [⟨"user", content⟩]))
        content = none) :
    (handleMessageSend gen s content).1.msgs =
        s.msgs ++ [⟨"user", content⟩] ∧
    (handleMessageSend gen s content).1.errorEmits = s.errorEmits + 1 := by
  simp [handleMessageSend, hfail]

theorem C4_amended_failure_turn_not_persisted_witness :
    ((fun (_ : List Msg) (_ : String) => (none : Option String))
        (lastN aiHistoryLimit (emptyHandlerState.msgs ++ [⟨"user", "hi"⟩]))
        "hi" = none) ∧
    ((handleMessageSend (fun _ _ => none) emptyHandlerState "hi").1.msgs =
        emptyHandlerState.msgs ++ [⟨"user", "hi"⟩] ∧
      (handleMessageSend (fun _ _ => none) emptyHandlerState
          "hi").1.errorEmits = emptyHandlerState.errorEmits + 1) :=
  ⟨rfl, C4_amended_failure_turn_not_persisted (fun _ _ => none)
    emptyHandlerState "hi" rfl⟩

theorem fsLookup_fsSet_self {α : Type} (l : List (String × α)) (k : String)
    (v : α) : fsLookup (fsSet l k v) k = some v := by
  induction l with
  | nil => simp [fsLookup, fsSet]
  | cons p t ih =>
      by_cases h : p.1 = k
      · simp [fsLookup, fsSet, h]
      · simp [fsLookup, fsSet, h, ih]

/-- C8: the ConversationKey is the stable identifier `userId_characterId`,
and `getOrCreateConversation` is idempotent — a second call with the same
pair returns the same id and document and leaves the store exactly as the
first call left it, so `createdAt` and `messageCount` are not reset. -/
theorem C8_getOrCreateConversation_idempotent :
    ∀ (db : Firestore) (u ch : String) (t1 t2 : Nat),
      (getOrCreateConversation db u ch t1).2.1 = u ++ "_" ++ ch ∧
      getOrCreateConversation (getOrCreateConversation db u ch t1).1 u ch t2
        = getOrCreateConversation db u ch t1 := by
  intro db u ch t1 t2
  cases h : fsLookup db.convs (u ++ "_" ++ ch) with
  | some c => simp [getOrCreateConversation, h]
  | none => simp [getOrCreateConversation, h, fsLookup_fsSet_self]

/-- C5: the claim states the write-behind ordering — every persisted
message lands in the fast store first and only afterwards in the durable
store. A concrete successful `saveMessage` performs its writes in the
opposite order: the Firestore batch commit strictly precedes the cache
push. -/
theorem C5_counterexample :
    (saveMessage true
        ⟨[("u1_c1", ⟨"u1", "c1", 0, 0, 0, none⟩)], []⟩ []
        "u1_c1" "user" "text" "hi" 7 100).2.2.2 =
      [StoreOp.durableCommit, StoreOp.cachePush] ∧
    ¬ (List.indexOf StoreOp.cachePush
        ((saveMessage true
          ⟨[("u1_c1", ⟨"u1", "c1", 0, 0, 0, none⟩)], []⟩ []
          "u1_c1" "user" "text" "hi" 7 100).2.2.2) <
       List.indexOf StoreOp.durableCommit
        ((saveMessage true
          ⟨[("u1_c1", ⟨"u1", "c1", 0, 0, 0, none⟩)], []⟩ []
          "u1_c1" "user" "text" "hi" 7 100).2.2.2)) := by
  refine ⟨by decide, by decide⟩

/-- C5 (amended): `saveMessage` is write-through, not write-behind: every
run either commits the durable-store batch first and pushes to the
fast-store cache only afterwards, or fails its commit and leaves the
fast store untouched. -/
theorem C5_amended_write_through :
    ∀ (commitOk : Bool) (db : Firestore) (cache : Cache)
      (cid s t c : String) (mid now : Nat),
      (saveMessage commitOk db cache cid s t c mid now).2.2.2 =
          [StoreOp.durableCommit, StoreOp.cachePush] ∨
      ((saveMessage commitOk db cache cid s t c mid now).2.2.2 = [] ∧
        (saveMessage commitOk db cache cid s t c mid now).2.2.1 = cache) := by
  intro commitOk db cache cid s t c mid now
  cases h : fsLookup db.convs cid <;> cases commitOk <;>
    simp [saveMessage, h]

/-- C9: a successful `saveMessage` writes the message document and the
conversation metadata update (messageCount incremented by exactly 1,
lastMessage and updatedAt set) in one atomic batch and then pushes the
message to the cache; a failed commit changes neither store, pushes
nothing to the cache, and propagates the error. -/
theorem C9_saveMessage_atomic_batch
    (db : Firestore) (cache : Cache) (cid s t c : String) (mid now : Nat)
    (conv : Conversation) (hconv : fsLookup db.convs cid = some conv) :
    ((saveMessage true db cache cid s t c mid now).1 =
        Except.ok ⟨mid, s, t, c, now, cid⟩ ∧
      fsLookup (saveMessage true db cache cid s t c mid now).2.1.convs cid
        = some { conv with
                  updatedAt := now
                  lastMessage := some (if c = "" then t else c)
                  messageCount := conv.messageCount + 1 } ∧
      (saveMessage true db cache cid s t c mid now).2.1.msgs =
        db.msgs ++ [(cid, ⟨mid, s, t, c, now, cid⟩)] ∧
      cacheList (saveMessage true db cache cid s t c mid now).2.2.1 cid =
        cacheList cache cid ++ [⟨mid, s, t, c, now, cid⟩]) ∧
    saveMessage false db cache cid s t c mid now =
      (Except.error "Error saving message", db, cache, []) := by
  constructor
  · refine ⟨by simp [saveMessage, hconv], ?_, by simp [saveMessage, hconv],
      ?_⟩
    · simp [saveMessage, hconv, fsLookup_fsSet_self]
    · simp [saveMessage, hconv, cachePushMessage, cacheList,
        fsLookup_fsSet_self]
  · simp [saveMessage, hconv]

theorem C9_saveMessage_atomic_batch_witness :
    fsLookup (Firestore.mk [("u1_c1", ⟨"u1", "c1", 0, 0, 0, none⟩)]
        []).convs "u1_c1" = some ⟨"u1", "c1", 0, 0, 0, none⟩ ∧
    (saveMessage true
        ⟨[("u1_c1", ⟨"u1", "c1", 0, 0, 0, none⟩)], []⟩ []
        "u1_c1" "user" "text" "hi" 7 100).1 =
      Except.ok ⟨7, "user", "text", "hi", 100, "u1_c1"⟩ :=
  ⟨by decide,
    (C9_saveMessage_atomic_batch
      ⟨[("u1_c1", ⟨"u1", "c1", 0, 0, 0, none⟩)], []⟩ []
      "u1_c1" "user" "text" "hi" 7 100
      ⟨"u1", "c1", 0, 0, 0, none⟩ (by decide)).1.1⟩

theorem lastN_eq_nil {α : Type} {n : Nat} {l : List α}
    (h : lastN n l = []) (hn : 0 < n) : l = [] := by
  have hl : (lastN n l).length = 0 := by rw [h]; rfl
  have h2 : l.length - (l.length - n) = 0 := by
    simpa [lastN, List.length_drop] using hl
  have h3 : l.length = 0 := by omega
  exact List.length_eq_zero.mp h3

theorem mem_insertByTs {m y : Message} : ∀ {l : List Message},
    y ∈ insertByTs m l → y = m ∨ y ∈ l := by
  intro l
  induction l with
  | nil => intro h; simpa [insertByTs] using h
  | cons x xs ih =>
      intro h
      by_cases hc : m.timestamp ≤ x.timestamp
      · simp only [insertByTs, if_pos hc, List.mem_cons] at h
        rcases h with h | h | h
        · exact Or.inl h
        · exact Or.inr (by simp [h])
        · exact Or.inr (List.mem_cons_of_mem _ h)
      · simp only [insertByTs, if_neg hc, List.mem_cons] at h
        rcases h with h | h
        · exact Or.inr (by simp [h])
        · rcases ih h with h1 | h1
          · exact Or.inl h1
          · exact Or.inr (List.mem_cons_of_mem _ h1)

theorem chronological_insertByTs {m : Message} : ∀ {l : List Message},
    Chronological l → Chronological (insertByTs m l) := by
  intro l
  induction l with
  | nil => intro _; simp [insertByTs, Chronological]
  | cons x xs ih =>
      intro hp
      rcases List.pairwise_cons.mp hp with ⟨hx, hxs⟩
      by_cases hc : m.timestamp ≤ x.timestamp
      · simp only [insertByTs, if_pos hc]
        refine List.pairwise_cons.mpr ⟨?_, hp⟩
        intro y hy
        rcases List.mem_cons.mp hy with h | h
        · exact h ▸ hc
        · exact Nat.le_trans hc (hx y h)
      · simp only [insertByTs, if_neg hc]
        refine List.pairwise_cons.mpr ⟨?_, ih hxs⟩
        intro y hy
        rcases mem_insertByTs hy with h | h
        · subst h; omega
        · exact hx y h

theorem chronological_sortByTs : ∀ l : List Message,
    Chronological (sortByTs l) := by
  intro l
  induction l with
  | nil => simp [sortByTs, Chronological]
  | cons x xs ih => simpa [sortByTs] using chronological_insertByTs ih

theorem chronological_lastN (n : Nat) {l : List Message}
    (h : Chronological l) : Chronological (lastN n l) :=
  List.Pairwise.sublist (List.drop_sublist _ _) h

theorem cacheList_foldl_push (cid : String) : ∀ (ms : List Message)
    (cache : Cache),
    cacheList (ms.foldl (fun acc m => cachePushMessage acc cid m) cache) cid
      = cacheList cache cid ++ ms := by
  intro ms
  induction ms with
  | nil => intro cache; simp
  | cons m ms ih =>
      intro cache
      simp only [List.foldl_cons, ih]
      simp [cachePushMessage, cacheList, fsLookup_fsSet_self]

/-- C6: `getMessages` serves the fast-store buffer first — when the buffer
holds messages they are returned as served and the cache is untouched —
and falls back to the durable store only when the buffer is empty,
returning the `limit` most recent messages in chronological (arrival)
order and repopulating the buffer with exactly the returned messages. -/
theorem C6_read_through_cache_first :
    ∀ (db : Firestore) (cache : Cache) (cid : String) (limit : Nat),
      (lastN limit (cacheList cache cid) ≠ [] →
        getMessages db cache cid limit =
          (cache, lastN limit (cacheList cache cid))) ∧
      (lastN limit (cacheList cache cid) = [] → 0 < limit →
        ((getMessages db cache cid limit).2 =
            lastN limit (sortByTs
              ((db.msgs.filter (fun p => p.1 == cid)).map Prod.snd)) ∧
          Chronological (getMessages db cache cid limit).2 ∧
          cacheList (getMessages db cache cid limit).1 cid =
            (getMessages db cache cid limit).2)) := by
  intro db cache cid limit
  constructor
  · intro hne
    have hpos : 0 < (lastN limit (cacheList cache cid)).length :=
      List.length_pos.mpr hne
    simp [getMessages, hpos]
  · intro hnil hlim
    have hc0 : cacheList cache cid = [] := lastN_eq_nil hnil hlim
    have hstep : getMessages db cache cid limit =
        ((lastN limit (sortByTs ((db.msgs.filter (fun p => p.1 == cid)).map
            Prod.snd))).foldl (fun acc m => cachePushMessage acc cid m)
          cache,
         lastN limit (sortByTs ((db.msgs.filter (fun p => p.1 == cid)).map
            Prod.snd))) := by
      simp [getMessages, hnil]
    refine ⟨by rw [hstep], ?_, ?_⟩
    · rw [hstep]
      exact chronological_lastN _ (chronological_sortByTs _)
    · rw [hstep]
      simp [cacheList_foldl_push, hc0]

theorem C6_read_through_cache_first_witness :
    lastN 2 (cacheList ([] : Cache) "u1_c1") = [] ∧ 0 < 2 ∧
    (getMessages
        ⟨[("u1_c1", ⟨"u1", "c1", 0, 0, 0, none⟩)],
          [("u1_c1", ⟨1, "user", "text", "hi", 5, "u1_c1"⟩),
            ("u1_c1", ⟨2, "character", "text", "hey", 3, "u1_c1"⟩)]⟩
        ([] : Cache) "u1_c1" 2).2 =
      lastN 2 (sortByTs (((Firestore.mk
          [("u1_c1", ⟨"u1", "c1", 0, 0, 0, none⟩)]
          [("u1_c1", ⟨1, "user", "text", "hi", 5, "u1_c1"⟩),
            ("u1_c1", ⟨2, "character", "text", "hey", 3, "u1_c1"⟩)]).msgs.filter
          (fun p => p.1 == "u1_c1")).map Prod.snd)) :=
  ⟨rfl, by decide,
    ((C6_read_through_cache_first
        ⟨[("u1_c1", ⟨"u1", "c1", 0, 0, 0, none⟩)],
          [("u1_c1", ⟨1, "user", "text", "hi", 5, "u1_c1"⟩),
            ("u1_c1", ⟨2, "character", "text", "hey", 3, "u1_c1"⟩)]⟩
        ([] : Cache) "u1_c1" 2).2 rfl (by decide)).1⟩

/-- C7: the background flusher's trigger fires exactly when either the
buffered entry count exceeds the configured maximum of 400 operations or
the configured 60-second flush interval has elapsed since the first
unflushed entry, whichever occurs first. -/
theorem C7_flush_trigger :
    (∀ (b : BufferState) (now : Nat),
        shouldFlush b now = true ↔
          (400 < b.count ∨
            ∃ t, b.firstUnflushedAt = some t ∧ t + 60000 ≤ now)) ∧
    flushInterval = 60000 ∧ maxBufferSize = 400 := by
  refine ⟨?_, rfl, rfl⟩
  intro b now
  cases hf : b.firstUnflushedAt with
  | none => simp [shouldFlush, maxBufferSize, flushInterval, hf]
  | some t => simp [shouldFlush, maxBufferSize, flushInterval, hf]

/-- C10: free-tier daily usage per user–character pair is capped at 30
text, 5 audio and 5 media messages; with the text counter at 30,
`canSendMessage` denies with zero remaining and the error "Daily message
limit reached"; audio and media are tracked and limited independently
(incrementing one type never changes another type's counter). -/
theorem C10_daily_usage_limits :
    (∀ a m : Nat, canSendMessage ⟨30, a, m⟩ MsgType.text =
        ⟨false, 0, some "Daily message limit reached"⟩) ∧
    canSendMessage ⟨0, 0, 0⟩ MsgType.text = ⟨true, 30, none⟩ ∧
    canSendMessage ⟨1, 0, 0⟩ MsgType.text = ⟨true, 29, none⟩ ∧
    (∀ x : Nat, canSendMessage ⟨x, 1, 1⟩ MsgType.audio = ⟨true, 4, none⟩ ∧
        canSendMessage ⟨x, 1, 1⟩ MsgType.media = ⟨true, 4, none⟩) ∧
    (limitFor MsgType.text = 30 ∧ limitFor MsgType.audio = 5 ∧
      limitFor MsgType.media = 5) ∧
    (∀ (u : Usage) (t t' : MsgType), t ≠ t' →
        usedFor (incrementUsage u t) t' = usedFor u t') := by
  refine ⟨?_, by decide, by decide, ?_, by decide, ?_⟩
  · intro a m
    simp [canSendMessage, usedFor, limitFor]
  · intro x
    constructor <;> simp [canSendMessage, usedFor, limitFor]
  · intro u t t' h
    cases t <;> cases t' <;> simp_all [incrementUsage, usedFor]

theorem C10_daily_usage_limits_witness :
    (MsgType.text ≠ MsgType.audio) ∧
    usedFor (incrementUsage ⟨3, 1, 0⟩ MsgType.text) MsgType.audio =
      usedFor (⟨3, 1, 0⟩ : Usage) MsgType.audio :=
  ⟨by decide, C10_daily_usage_limits.2.2.2.2.2 ⟨3, 1, 0⟩ MsgType.text
      MsgType.audio (by decide)⟩
